import Mathlib

/-!
Verification of the yanswap license server's token lifecycle core
(`token_manager.py` and the token handling in `server.py`).

The Python code keeps tokens in a dynamically typed dict-of-dicts
(`TokenManager.tokens`).  We embed the Python runtime values needed by that
code as the inductive type `PyVal` (timestamps are `datetime` objects,
modelled by `PyVal.dt` over integer seconds), dicts as association lists with
Python's insertion-order update semantics, and exceptions as an explicit
`Except PyErr` (or an explicitly threaded store when partial mutation before
an exception matters).  Calls to `datetime.now()` become an explicit `now`
parameter, and `secrets.token_hex(16)` an explicit `gen` parameter.

ISO-8601 timestamp rendering is abstracted as a decimal rendering with the
same round-trip behaviour: `isofmt` is injective, `fromiso (isofmt t) = some
t`, and arbitrary strings may fail to parse (Python's `ValueError`).

Python's cross-type numeric equality (`1 == True`) is not modelled; every
dict key appearing in this development is a string, as in the code.
-/

namespace Yanswap

/-- Python exceptions that the embedded code can raise. -/
inductive PyErr where
  | attributeError
  | typeError
  | valueError
  | keyError

/-- The Python runtime values handled by the token manager: `None`, booleans,
integers, strings, `datetime` objects (seconds since the epoch), lists and
string-keyed dicts. -/
inductive PyVal where
  | none
  | bool (b : Bool)
  | int (n : Int)
  | str (s : String)
  | dt (t : Int)
  | list (xs : List PyVal)
  | dict (kvs : List (String × PyVal))

/-- The in-memory token store `TokenManager.tokens`: a Python dict from token
string to record. -/
abbrev Store := List (String × PyVal)

/-- Python truthiness (`bool(v)`) for the modelled values. -/
def truthy : PyVal → Bool
  | .none => false
  | .bool b => b
  | .int n => n != 0
  | .str s => s != ""
  | .dt _ => true
  | .list xs => !xs.isEmpty
  | .dict kvs => !kvs.isEmpty

/-- Dict lookup (`d[k]` when present / `d.get(k)`): first binding wins; the
update operation below keeps keys unique. -/
def dictGet : List (String × PyVal) → String → Option PyVal
  | [], _ => Option.none
  | (k1, v) :: rest, k => if k1 = k then some v else dictGet rest k

/-- `d.get(k, default)`. -/
def dictGetD (l : List (String × PyVal)) (k : String) (d : PyVal) : PyVal :=
  (dictGet l k).getD d

/-- `k in d` for a dict. -/
def dictMem (l : List (String × PyVal)) (k : String) : Bool :=
  (dictGet l k).isSome

/-- `d[k] = v`: replaces the binding in place (Python dicts keep the original
key position on update) or appends a new binding. -/
def dictSet : List (String × PyVal) → String → PyVal → List (String × PyVal)
  | [], k, v => [(k, v)]
  | (k1, v1) :: rest, k, v =>
    if k1 = k then (k, v) :: rest else (k1, v1) :: dictSet rest k v

/-- Whether the pattern occurs at the head of the text. -/
def subAt : List Char → List Char → Bool
  | [], _ => true
  | _ :: _, [] => false
  | a :: as, b :: bs => a == b && subAt as bs

/-- Whether the pattern occurs anywhere in the text. -/
def hasSub (pat : List Char) : List Char → Bool
  | [] => subAt pat []
  | c :: cs => subAt pat (c :: cs) || hasSub pat cs

/-- Python `needle in haystack` for strings (substring test). -/
def strHasSub (haystack needle : String) : Bool :=
  hasSub needle.data haystack.data

/-- Python `k in v`: key test on dicts, element test on lists (a string only
equals a string element), substring test on strings, `TypeError` otherwise
(`None`, booleans, integers and `datetime`s are not iterable). -/
def pyContains (k : String) : PyVal → Except PyErr Bool
  | .dict kvs => .ok (dictMem kvs k)
  | .list xs => .ok (xs.any (fun x => match x with | .str s => k == s | _ => false))
  | .str s => .ok (strHasSub s k)
  | _ => .error .typeError

/-- Python `v[k]` with a string subscript: dict lookup (`KeyError` when
missing); `TypeError` on lists, strings and everything else. -/
def pyIndex (v : PyVal) (k : String) : Except PyErr PyVal :=
  match v with
  | .dict kvs =>
    match dictGet kvs k with
    | some x => .ok x
    | Option.none => .error .keyError
  | _ => .error .typeError

/-- `v[k] = x` on a value known to be a dict (all call sites below are guarded
by a successful `pyIndex`, which forces the dict case). -/
def pySet (v : PyVal) (k : String) (x : PyVal) : PyVal :=
  match v with
  | .dict kvs => .dict (dictSet kvs k x)
  | other => other

/-- `datetime.isoformat`, abstracted to a decimal rendering (see header). -/
def isofmt (t : Int) : String := toString t

/-- The numeric value of a decimal digit character. -/
def charDigit (c : Char) : Option Nat :=
  if 48 ≤ c.toNat && c.toNat ≤ 57 then some (c.toNat - 48) else Option.none

/-- Decimal value of a digit string. -/
def digitsToNat (acc : Nat) : List Char → Option Nat
  | [] => some acc
  | c :: cs =>
    match charDigit c with
    | some d => digitsToNat (acc * 10 + d) cs
    | Option.none => Option.none

/-- `datetime.fromisoformat`, the matching parser for `isofmt`;
`Option.none` models the `ValueError` raised on strings that are not in the
timestamp format. -/
def fromiso (s : String) : Option Int :=
  match s.data with
  | [] => Option.none
  | '-' :: rest =>
    match rest with
    | [] => Option.none
    | _ => (digitsToNat 0 rest).map (fun n => -(n : Int))
  | l => (digitsToNat 0 l).map (fun n => (n : Int))

/-- ASCII whitespace, as stripped from the ends of a supplied token. -/
def isSpaceCh (c : Char) : Bool :=
  c == ' ' || c == '\t' || c == '\n' || c == '\r'

/-- Drop leading whitespace characters. -/
def dropLeadSp : List Char → List Char
  | [] => []
  | c :: cs => if isSpaceCh c then dropLeadSp cs else c :: cs

/-- Python `str.strip()`: remove whitespace from both ends. -/
def pytrim (s : String) : String :=
  String.mk ((dropLeadSp (dropLeadSp s.data).reverse).reverse)

/-- Lower-case an ASCII letter. -/
def lowerCh (c : Char) : Char :=
  if 65 ≤ c.toNat && c.toNat ≤ 90 then Char.ofNat (c.toNat + 32) else c

/-- Lower-case a string (ASCII). -/
def lowerStr (s : String) : String := String.mk (s.data.map lowerCh)

/-! ## `token_manager.py`: persistence (`_save_tokens`, `_load_tokens`) -/

mutual

/-- Whether a value is JSON-serializable: every modelled value is, except a
`datetime` object (`json.dump` raises `TypeError` on those). -/
def jsonOK : PyVal → Bool
  | .none => true
  | .bool _ => true
  | .int _ => true
  | .str _ => true
  | .dt _ => false
  | .list xs => jsonOKList xs
  | .dict kvs => jsonOKKvs kvs

def jsonOKList : List PyVal → Bool
  | [] => true
  | x :: xs => jsonOK x && jsonOKList xs

def jsonOKKvs : List (String × PyVal) → Bool
  | [] => true
  | (_, v) :: kvs => jsonOK v && jsonOKKvs kvs

end

/-- One record of the data built by `_save_tokens` (lines 78-85): copy the
record and turn a `datetime` in `created_at` or `expires_at` into its ISO
string.  `last_used` is left untouched.  A record that is not a dict raises
`AttributeError` (`.copy()` / `.get` on it). -/
def saveRec : PyVal → Except PyErr PyVal
  | .dict kvs =>
    let kvs1 := match dictGet kvs "created_at" with
      | some (.dt t) => dictSet kvs "created_at" (.str (isofmt t))
      | _ => kvs
    let kvs2 := match dictGet kvs1 "expires_at" with
      | some (.dt t) => dictSet kvs1 "expires_at" (.str (isofmt t))
      | _ => kvs1
    .ok (.dict kvs2)
  | _ => .error .attributeError

/-- The full `data` dict built by `_save_tokens`. -/
def saveData : Store → Except PyErr Store
  | [] => .ok []
  | (k, v) :: rest =>
    match saveRec v with
    | .error e => .error e
    | .ok v1 =>
      match saveData rest with
      | .error e => .error e
      | .ok rest1 => .ok ((k, v1) :: rest1)

/-- `TokenManager._save_tokens`: build the serializable copy, then try to
write it.  `.ok (some data)` means a snapshot with content `data` was written;
`.ok Option.none` means the write failed (in particular `json.dump` raising
`TypeError` on a leftover `datetime`) and was swallowed as a warning, leaving
no snapshot of the current store.  `.error` models the uncaught exceptions
from the data-building loop, which is outside the `try`. -/
def saveTokens (store : Store) : Except PyErr (Option Store) :=
  match saveData store with
  | .error e => .error e
  | .ok data => if jsonOKKvs data then .ok (some data) else .ok Option.none

/-- The per-record date conversion in `_load_tokens` (identical for the
environment and for the file source): parse `created_at` and a truthy
`expires_at` back from ISO strings, ignoring parse failures (`try/except:
pass`).  The membership tests and subscripts follow Python semantics, so a
non-dict record value can raise `TypeError` here, uncaught. -/
def convInfo (info : PyVal) : Except PyErr PyVal := do
  let c1 ← pyContains "created_at" info
  let info1 ←
    if c1 then do
      let v ← pyIndex info "created_at"
      match v with
      | .str s =>
        match fromiso s with
        | some t => pure (pySet info "created_at" (.dt t))
        | Option.none => pure info
      | _ => pure info
    else pure info
  let c2 ← pyContains "expires_at" info1
  if c2 then do
    let v ← pyIndex info1 "expires_at"
    if truthy v then
      match v with
      | .str s =>
        match fromiso s with
        | some t => pure (pySet info1 "expires_at" (.dt t))
        | Option.none => pure info1
      | _ => pure info1
    else pure info1
  else pure info1

/-- The conversion loop of `_load_tokens` over `data.items()`. -/
def convStore : List (String × PyVal) → Except PyErr Store
  | [] => .ok []
  | (k, v) :: rest => do
    let v1 ← convInfo v
    let rest1 ← convStore rest
    .ok ((k, v1) :: rest1)

/-- Loading from a successfully parsed JSON document: `data.items()` raises
`AttributeError` if the document is not an object (e.g. a JSON array). -/
def loadFromJson : PyVal → Except PyErr Store
  | .dict kvs => convStore kvs
  | _ => .error .attributeError

/-- The on-disk `tokens.json` as seen by `_load_tokens`: missing, or present
with the outcome of `json.load` (`Option.none` = `JSONDecodeError` /
`ValueError`). -/
inductive FileSrc where
  | missing
  | content (parsed : Option PyVal)

/-- The file half of `_load_tokens`: a missing or unparsable file yields the
empty store (the decode error is caught); a parsed document goes through the
conversion loop, whose errors are not caught. -/
def loadFile : FileSrc → Except PyErr Store
  | .missing => .ok []
  | .content Option.none => .ok []
  | .content (some j) => loadFromJson j

/-- `TokenManager._load_tokens`.  The environment input is the outcome of
reading `TOKENS_JSON`: `Option.none` when unset or empty (falsy), `some
Option.none` when set but not valid JSON (`json.loads` raised, caught, falls
through to the file), `some (some j)` when it parsed to `j`. -/
def load_tokens : Option (Option PyVal) → FileSrc → Except PyErr Store
  | some (some j), _ => loadFromJson j
  | some Option.none, f => loadFile f
  | Option.none, f => loadFile f

/-! ## `token_manager.py`: the lifecycle engine -/

/-- Every record in the store is a dict (the shape every code path of the
repository creates). -/
def storeAllDicts : Store → Bool
  | [] => true
  | (_, v) :: rest =>
    (match v with | PyVal.dict _ => true | _ => false) && storeAllDicts rest

/-- `info.get("used_count", 0) + 1`: Python adds booleans as 0/1 and raises
`TypeError` on anything that is not a number. -/
def pyIncr : PyVal → Except PyErr Int
  | .int n => .ok (n + 1)
  | .bool b => .ok (if b then 2 else 1)
  | _ => .error .typeError

/-- The success tail of `is_valid` (lines 169-174): bump `used_count`, set
`last_used` to now, persist, return `(True, None)`.  The store is threaded
explicitly so that a raise after the in-place mutation keeps the mutation,
exactly as in Python. -/
def validGo (now : Int) (store : Store) (token : String)
    (info : List (String × PyVal)) :
    (Except PyErr (Bool × Option String)) × Store :=
  match pyIncr (dictGetD info "used_count" (.int 0)) with
  | .error e => (.error e, store)
  | .ok n =>
    let info1 := dictSet info "used_count" (.int n)
    let info2 := dictSet info1 "last_used" (.dt now)
    let store1 := dictSet store token (.dict info2)
    match saveTokens store1 with
    | .error e => (.error e, store1)
    | .ok _ => (.ok (true, Option.none), store1)

/-- `TokenManager.is_valid` (lines 147-174), with `datetime.now()` passed in
as `now`.  Returns the `(is_valid, error_message)` pair (or the uncaught
exception) together with the store after the call. -/
def is_valid (now : Int) (store : Store) (token : String) :
    (Except PyErr (Bool × Option String)) × Store :=
  match dictGet store token with
  | Option.none => (.ok (false, some "Токен не найден"), store)
  | some (.dict info) =>
    if truthy (dictGetD info "active" (.bool true)) = false then
      (.ok (false, some "Токен деактивирован"), store)
    else
      let ea := dictGetD info "expires_at" .none
      let expRes : Except PyErr (Option Int) :=
        if truthy ea then
          match ea with
          | .str s =>
            match fromiso s with
            | some t => .ok (some t)
            | Option.none => .error .valueError
          | .dt t => .ok (some t)
          | _ => .error .typeError
        else .ok Option.none
      match expRes with
      | .error e => (.error e, store)
      | .ok (some t) =>
        if now > t then (.ok (false, some "Токен истёк"), store)
        else validGo now store token info
      | .ok Option.none => validGo now store token info
  | some _ => (.error .attributeError, store)

/-- Truthiness of the optional `days_valid` / `hours_valid` arguments:
`None` and `0` are falsy. -/
def optTruthy : Option Int → Bool
  | some n => n != 0
  | Option.none => false

/-- The `expires_at` computed by `create_token` (lines 128-134): a truthy
`days_valid` wins, else a truthy `hours_valid`, else no expiry. -/
def ttlExpiry (now : Int) (days hours : Option Int) : Option Int :=
  if optTruthy days then days.map (fun d => now + d * 86400)
  else if optTruthy hours then hours.map (fun h => now + h * 3600)
  else Option.none

/-- `TokenManager.create_token` (lines 101-145), with `secrets.token_hex(16)`
passed in as `gen`.  A falsy `custom_token` (absent or empty) selects the
generated token; a truthy one is stripped of surrounding whitespace.  Raises
`ValueError` when the resulting token already exists; the store is returned
unchanged in that case since the raise precedes every mutation. -/
def create_token (now : Int) (gen : String) (store : Store)
    (custom_token : Option String) (days_valid hours_valid : Option Int)
    (description : String) : (Except PyErr String) × Store :=
  let token := match custom_token with
    | some c => if c = "" then gen else pytrim c
    | Option.none => gen
  if dictMem store token then (.error .valueError, store)
  else
    let record : PyVal := .dict
      [("created_at", .dt now),
       ("expires_at",
         match ttlExpiry now days_valid hours_valid with
         | some t => .dt t
         | Option.none => .none),
       ("active", .bool true),
       ("description", .str description),
       ("used_count", .int 0),
       ("last_used", .none)]
    let store1 := dictSet store token record
    match saveTokens store1 with
    | .error e => (.error e, store1)
    | .ok _ => (.ok token, store1)

/-- `isinstance(v, datetime)`-guarded `isoformat` conversion used when
building the listing entries. -/
def isoIfDt : PyVal → PyVal
  | .dt t => .str (isofmt t)
  | v => v

/-- The `token_info` dict built by `list_tokens` (lines 230-247), with its
`datetime` fields rendered to ISO strings. -/
def buildListInfo (token : String) (kvs : List (String × PyVal))
    (ea : PyVal) : PyVal :=
  .dict
    [("token", .str token),
     ("created_at", isoIfDt (dictGetD kvs "created_at" .none)),
     ("expires_at", isoIfDt ea),
     ("active", dictGetD kvs "active" (.bool true)),
     ("description", dictGetD kvs "description" (.str "")),
     ("used_count", dictGetD kvs "used_count" (.int 0)),
     ("last_used", isoIfDt (dictGetD kvs "last_used" .none))]

/-- One iteration of the `list_tokens` loop: `.ok Option.none` means the
record was skipped (`continue`).  An inactive record is skipped only under
`active_only`; a truthy `expires_at` is converted from a string if needed
(an unparsable string raises `ValueError`, uncaught) and an expired record is
skipped only under `active_only`.  A non-dict record raises
`AttributeError`. -/
def listEntry (now : Int) (active_only : Bool) (token : String)
    (info : PyVal) : Except PyErr (Option PyVal) :=
  match info with
  | .dict kvs =>
    if active_only && !(truthy (dictGetD kvs "active" (.bool true))) then
      .ok Option.none
    else
      let eaRaw := dictGetD kvs "expires_at" .none
      let step : Except PyErr (Bool × PyVal) :=
        if truthy eaRaw then
          match eaRaw with
          | .str s =>
            match fromiso s with
            | some t => .ok (active_only && decide (now > t), .dt t)
            | Option.none => .error .valueError
          | .dt t => .ok (active_only && decide (now > t), .dt t)
          | _ => .error .typeError
        else .ok (false, eaRaw)
      match step with
      | .error e => .error e
      | .ok (true, _) => .ok Option.none
      | .ok (false, ea) => .ok (some (buildListInfo token kvs ea))
  | _ => .error .attributeError

/-- `TokenManager.list_tokens` (lines 215-251). -/
def list_tokens (now : Int) (store : Store) (active_only : Bool) :
    Except PyErr (List PyVal) :=
  match store with
  | [] => .ok []
  | (t, info) :: rest =>
    match listEntry now active_only t info with
    | .error e => .error e
    | .ok e =>
      match list_tokens now rest active_only with
      | .error e2 => .error e2
      | .ok l =>
        match e with
        | some d => .ok (d :: l)
        | Option.none => .ok l

/-! ## `server.py`: request token extraction -/

/-- An inbound request as `get_token_from_request` sees it: whether Flask
classifies it as JSON, the outcome of `request.get_json(silent=True)`
(`Option.none` = body did not parse), and the form and query-string
multidicts (Flask form/query values are strings). -/
structure Request where
  is_json : Bool
  jsonData : Option PyVal
  form : List (String × String)
  args : List (String × String)

/-- Python `a or b` on the two `data.get` results (a falsy left operand,
including a present-but-falsy value, selects the right operand). -/
def pyOr (a b : Option PyVal) : Option PyVal :=
  match a with
  | some v => if truthy v then some v else b
  | Option.none => b

/-- Exact-key lookup in a form/query multidict (`request.form.get(k)`). -/
def lookupField : List (String × String) → String → Option String
  | [], _ => Option.none
  | (k1, v) :: rest, k => if k1 = k then some v else lookupField rest k

/-- `m.get("token") or m.get("Token")` on a form/query multidict. -/
def dualGet (l : List (String × String)) : Option String :=
  match lookupField l "token" with
  | some s => if s ≠ "" then some s else lookupField l "Token"
  | Option.none => lookupField l "Token"

/-- Truthiness of an optional string (`if form_token:`). -/
def optStrTruthy : Option String → Bool
  | some s => s != ""
  | Option.none => false

/-- `get_token_from_request` (server.py lines 25-51).  A JSON request is
answered from the parsed body alone — `data.get("token") or
data.get("Token")` — and its result is returned even when it is `None`; only
non-JSON requests consult the form and then the query string, each with the
same two exact-case keys.  A JSON body that parses to a truthy non-dict
raises `AttributeError` (`.get` on it). -/
def get_token_from_request (r : Request) : Except PyErr (Option PyVal) :=
  if r.is_json then
    match (match r.jsonData with
           | some j => if truthy j then j else .dict []
           | Option.none => .dict []) with
    | .dict kvs => .ok (pyOr (dictGet kvs "token") (dictGet kvs "Token"))
    | _ => .error .attributeError
  else
    let ft := dualGet r.form
    if optStrTruthy ft then .ok (ft.map PyVal.str)
    else
      let qt := dualGet r.args
      if optStrTruthy qt then .ok (qt.map PyVal.str)
      else .ok Option.none

/-- First value of a binding whose key lowercases to "token". -/
def lookupCIV : List (String × PyVal) → Option PyVal
  | [] => Option.none
  | (k, v) :: rest => if lowerStr k = "token" then some v else lookupCIV rest

/-- Case-insensitive "token" lookup on a string multidict. -/
def lookupCIS : List (String × String) → Option String
  | [] => Option.none
  | (k, v) :: rest => if lowerStr k = "token" then some v else lookupCIS rest

/-- Modelled from the spec: the Request Authenticator boundary of §6 —
"supplies a single candidate token string extracted from an inbound request
by trying, in order, a structured-body field, a form field, then a query
parameter, each checked case-insensitively for a 'token'-named field; returns
none if no candidate is found."  This is the behaviour the spec ascribes to
`get_token_from_request`, stated independently for comparison. -/
def specExtractToken (r : Request) : Option PyVal :=
  match (match r.jsonData with
         | some (.dict kvs) => lookupCIV kvs
         | _ => Option.none) with
  | some v => some v
  | Option.none =>
    match lookupCIS r.form with
    | some s => some (.str s)
    | Option.none =>
      match lookupCIS r.args with
      | some s => some (.str s)
      | Option.none => Option.none

/-! ## `server.py`: the sync reconciler (`sync_tokens`, lines 143-193) -/

/-- The record inserted for a token unknown to the store (lines 171-178). -/
def mkSyncRec (kvs : List (String × PyVal)) (ea : Option Int) (ca : PyVal) :
    PyVal :=
  .dict
    [("created_at", ca),
     ("expires_at", match ea with | some t => .dt t | Option.none => .none),
     ("active", dictGetD kvs "active" (.bool true)),
     ("description", dictGetD kvs "description" (.str "")),
     ("used_count", dictGetD kvs "used_count" (.int 0)),
     ("last_used", .none)]

/-- `if token_info.get(key): x = datetime.fromisoformat(token_info[key])`:
nothing for a falsy field, `ValueError` for an unparsable string,
`TypeError` when `fromisoformat` is fed a non-string. -/
def parseTsField (kvs : List (String × PyVal)) (key : String) :
    Except PyErr (Option Int) :=
  let v := dictGetD kvs key .none
  if truthy v then
    match v with
    | .str s =>
      match fromiso s with
      | some t => .ok (some t)
      | Option.none => .error .valueError
    | _ => .error .typeError
  else .ok Option.none

/-- The `created_at` of an inserted sync record: the descriptor's parsed
timestamp when present, else `datetime.now()`. -/
def caVal (now : Int) : Option Int → PyVal
  | some t => .dt t
  | Option.none => .dt now

/-- The body of the per-descriptor `try` block (lines 160-184): insert a new
record for an unknown token, otherwise update only the `active` and
`description` fields that the descriptor carries.  Item assignment on a
non-dict record raises `TypeError`. -/
def entryBody (now : Int) (store : Store) (token : String)
    (kvs : List (String × PyVal)) : Except PyErr Store :=
  if dictMem store token = false then
    match parseTsField kvs "expires_at" with
    | .error e => .error e
    | .ok ea =>
      match parseTsField kvs "created_at" with
      | .error e => .error e
      | .ok ca =>
        .ok (dictSet store token (mkSyncRec kvs ea (caVal now ca)))
  else
    match
      (if dictMem kvs "active" then
        match dictGet store token with
        | some (.dict rkvs) =>
          Except.ok (dictSet store token
            (.dict (dictSet rkvs "active" (dictGetD kvs "active" .none))))
        | some _ => Except.error PyErr.typeError
        | Option.none => Except.error PyErr.keyError
      else Except.ok store : Except PyErr Store) with
    | .error e => .error e
    | .ok s1 =>
      if dictMem kvs "description" then
        match dictGet s1 token with
        | some (.dict rkvs) =>
          .ok (dictSet s1 token
            (.dict (dictSet rkvs "description" (dictGetD kvs "description" .none))))
        | some _ => .error .typeError
        | Option.none => .error .keyError
      else .ok s1

/-- One iteration of the reconciliation loop (lines 154-187).  A descriptor
without a truthy token is skipped; every exception inside the inner `try` is
swallowed and the descriptor skipped; a non-dict descriptor raises
`AttributeError` at `token_info.get`, which is outside the inner `try`.  A
truthy non-string token would be stored under a non-string key in Python,
unreachable from every string-keyed lookup in this code base; such records
fall outside this string-keyed model and the branch is a no-op. -/
def processEntry (now : Int) (store : Store) (e : PyVal) :
    Except PyErr Store :=
  match e with
  | .dict kvs =>
    let tv := dictGetD kvs "token" .none
    if truthy tv = false then .ok store
    else
      match tv with
      | .str token =>
        match entryBody now store token kvs with
        | .ok s1 => .ok s1
        | .error _ => .ok store
      | _ => .ok store
  | _ => .error .attributeError

/-- The reconciliation loop over the batch; an uncaught exception aborts the
rest of the batch, keeping the mutations already applied. -/
def syncLoop (now : Int) : Store → List PyVal → Store × Option PyErr
  | store, [] => (store, Option.none)
  | store, e :: rest =>
    match processEntry now store e with
    | .ok s1 => syncLoop now s1 rest
    | .error err => (store, some err)

/-- The three response shapes of `/sync_tokens`: the 400 "Invalid request",
the 500 handler of the outer `except`, and the 200 `{"ok": True, "synced":
n}`. -/
inductive SyncResp where
  | invalidReq
  | serverErr
  | okSynced (n : Nat)

/-- After the loop: `_save_tokens()` (whose uncaught exceptions reach the
outer handler) and the 200 response carrying `len(tokens_data)`. -/
def syncAfter (store : Store) (n : Nat) : SyncResp × Store :=
  match saveTokens store with
  | .error _ => (.serverErr, store)
  | .ok _ => (.okSynced n, store)

/-- The `/sync_tokens` endpoint (lines 143-193), with the parsed request body
passed in (`Option.none` = `request.get_json()` returned `None`).  A falsy or
`tokens`-less body is a 400; an exception reaching the outer `except` is a
500 that keeps the mutations applied so far.  A non-list `tokens` value
either iterates emptily (empty string or dict: 200 with `synced = 0`) or
raises on its first element / on non-iterability (500). -/
def sync_tokens (now : Int) (store : Store) (data : Option PyVal) :
    SyncResp × Store :=
  match data with
  | Option.none => (.invalidReq, store)
  | some d =>
    if truthy d = false then (.invalidReq, store)
    else
      match pyContains "tokens" d with
      | .error _ => (.serverErr, store)
      | .ok false => (.invalidReq, store)
      | .ok true =>
        match pyIndex d "tokens" with
        | .error _ => (.serverErr, store)
        | .ok (.list xs) =>
          match syncLoop now store xs with
          | (s1, some _) => (.serverErr, s1)
          | (s1, Option.none) => syncAfter s1 xs.length
        | .ok (.str s) =>
          if s = "" then syncAfter store 0 else (.serverErr, store)
        | .ok (.dict kvs) =>
          if kvs.isEmpty then syncAfter store 0 else (.serverErr, store)
        | .ok _ => (.serverErr, store)

/-! ## Spec-side notions used by the theorem statements -/

/-- The active flag of a record as the code reads it
(`info.get("active", True)` through truthiness). -/
def recActive (v : PyVal) : Bool :=
  match v with
  | .dict kvs => truthy (dictGetD kvs "active" (.bool true))
  | _ => false

/-- Whether a record counts as expired at time `now`: a truthy `expires_at`
timestamp (a `datetime` or a parsable string) strictly in the past. -/
def recExpired (now : Int) (v : PyVal) : Bool :=
  match v with
  | .dict kvs =>
    match dictGetD kvs "expires_at" PyVal.none with
    | .dt t => decide (now > t)
    | .str s =>
      match fromiso s with
      | some t => decide (now > t)
      | Option.none => false
    | _ => false
  | _ => false

/-- The `expires_at` shapes on which the listing code cannot raise: absent or
null, a `datetime`, or a string that is empty or parsable. -/
def expShapeOK (kvs : List (String × PyVal)) : Bool :=
  match dictGetD kvs "expires_at" PyVal.none with
  | PyVal.none => true
  | .dt _ => true
  | .str s => s == "" || (fromiso s).isSome
  | _ => false

/-- The "token" field of a listing entry. -/
def tokField (d : PyVal) : Option PyVal :=
  match d with
  | .dict kvs => dictGet kvs "token"
  | _ => Option.none

/-- The sync reconciler's frame on a record: `used_count`, `last_used`,
`created_at` and `expires_at` all unchanged. -/
def frame4 (r r1 : List (String × PyVal)) : Prop :=
  dictGet r1 "used_count" = dictGet r "used_count" ∧
  dictGet r1 "last_used" = dictGet r "last_used" ∧
  dictGet r1 "created_at" = dictGet r "created_at" ∧
  dictGet r1 "expires_at" = dictGet r "expires_at"

/-- A batch descriptor that is a dict and does not carry the token string
`t` (so it can only touch other keys of the store). -/
def entryTokenNe (t : String) (e : PyVal) : Prop :=
  ∃ kvs, e = PyVal.dict kvs ∧ dictGetD kvs "token" PyVal.none ≠ PyVal.str t

/-- A freshly shaped record with the six fields every creation path writes. -/
def okRec (c : Int) (e : PyVal) (a : Bool) (d : String) (u : Int)
    (l : PyVal) : PyVal :=
  .dict
    [("created_at", .dt c), ("expires_at", e), ("active", .bool a),
     ("description", .str d), ("used_count", .int u), ("last_used", l)]

/-! Concrete inputs used by the counterexample, code-bug and witness
theorems. -/

/-- The record of the one token in `wStore`. -/
def wKvs : List (String × PyVal) :=
  [("created_at", PyVal.dt 0), ("expires_at", PyVal.none),
   ("active", PyVal.bool true), ("description", PyVal.str ""),
   ("used_count", PyVal.int 0), ("last_used", PyVal.none)]

/-- A store holding one fresh, active, never-expiring token. -/
def wStore : Store := [("tok", PyVal.dict wKvs)]

/-- The same store for the snapshot round-trip analysis. -/
def c2store : Store := [("tok", okRec 0 PyVal.none true "" 0 PyVal.none)]

/-- What `_save_tokens` serializes from `c2store`: only `created_at` is
rendered to a string. -/
def c2saved : Store :=
  [("tok", .dict
    [("created_at", .str "0"), ("expires_at", PyVal.none),
     ("active", .bool true), ("description", .str ""),
     ("used_count", .int 0), ("last_used", PyVal.none)])]

/-- `c2store` after one successful validation at time 5. -/
def c2after : Store := [("tok", okRec 0 PyVal.none true "" 1 (PyVal.dt 5))]

/-- A sync batch with one well-formed new descriptor and one descriptor with
no token string. -/
def c4batch : List PyVal := [.dict [("token", .str "t1")], .dict []]

/-- The store produced by folding `c4batch` into the empty store at time 0:
exactly one entry was actually processed. -/
def c4after : Store := [("t1", okRec 0 PyVal.none true "" 0 PyVal.none)]

/-- A store whose only token string carries surrounding whitespace (such keys
arrive through the sync reconciler or a snapshot, which insert token strings
verbatim). -/
def c6store : Store := [(" tok", okRec 0 PyVal.none true "" 0 PyVal.none)]

/-- The store after `create_token` was handed the already-existing string
`" tok"`: the strip made the duplicate check miss, and a second record was
inserted under the stripped key. -/
def c6after : Store :=
  [(" tok", okRec 0 PyVal.none true "" 0 PyVal.none),
   ("tok", okRec 0 PyVal.none true "" 0 PyVal.none)]

/-- A JSON request whose parsed body names the token field in upper case,
with fallback candidates in both the form and the query string. -/
def c8req : Request :=
  ⟨true, some (.dict [("TOKEN", .str "abc")]),
   [("token", "formtok")], [("token", "querytok")]⟩

/-- A store with one expired-but-active token and one live token. -/
def c10store : Store :=
  [("old", okRec 0 (PyVal.dt 3) true "" 0 PyVal.none),
   ("new", okRec 0 PyVal.none true "" 0 PyVal.none)]

/-! ## Dictionary lemmas -/

theorem dictGet_dictSet_self (l : List (String × PyVal)) (k : String)
    (v : PyVal) : dictGet (dictSet l k v) k = some v := by
  induction l with
  | nil => simp [dictSet, dictGet]
  | cons p rest ih =>
    obtain ⟨k1, v1⟩ := p
    by_cases h : k1 = k
    · simp [dictSet, dictGet, h]
    · simp [dictSet, dictGet, h, ih]

theorem dictGet_dictSet_ne (l : List (String × PyVal)) (k k1 : String)
    (v : PyVal) (h : k1 ≠ k) : dictGet (dictSet l k v) k1 = dictGet l k1 := by
  induction l with
  | nil => simp [dictSet, dictGet, Ne.symm h]
  | cons p rest ih =>
    obtain ⟨k2, v2⟩ := p
    by_cases h2 : k2 = k
    · subst h2
      simp [dictSet, dictGet, Ne.symm h]
    · simp [dictSet, dictGet, h2, ih]

theorem storeAllDicts_set (s : Store) (k : String)
    (kvs : List (String × PyVal)) (h : storeAllDicts s = true) :
    storeAllDicts (dictSet s k (.dict kvs)) = true := by
  induction s with
  | nil => simp [dictSet, storeAllDicts]
  | cons p rest ih =>
    obtain ⟨k1, v1⟩ := p
    simp only [storeAllDicts, Bool.and_eq_true] at h
    by_cases hk : k1 = k
    · simp [dictSet, hk, storeAllDicts, h.2]
    · simp [dictSet, hk, storeAllDicts, h.1, ih h.2]

/-! ## Persistence lemmas -/

theorem saveData_ok (s : Store) (h : storeAllDicts s = true) :
    ∃ d, saveData s = .ok d := by
  induction s with
  | nil => exact ⟨[], rfl⟩
  | cons p rest ih =>
    obtain ⟨k, v⟩ := p
    simp only [storeAllDicts, Bool.and_eq_true] at h
    obtain ⟨d, hd⟩ := ih h.2
    cases v with
    | dict kvs =>
      obtain ⟨v1, hv1⟩ : ∃ v1, saveRec (.dict kvs) = .ok v1 := ⟨_, rfl⟩
      exact ⟨(k, v1) :: d, by simp [saveData, hv1, hd]⟩
    | none => simp at h
    | bool b => simp at h
    | int n => simp at h
    | str s1 => simp at h
    | dt t => simp at h
    | list xs => simp at h

theorem saveTokens_ok (s : Store) (h : storeAllDicts s = true) :
    ∃ w, saveTokens s = .ok w := by
  rcases saveData_ok s h with ⟨d, hd⟩
  by_cases hj : jsonOKKvs d = true
  · exact ⟨some d, by simp [saveTokens, hd, hj]⟩
  · exact ⟨Option.none, by simp [saveTokens, hd, hj]⟩

/-! ## C1: validation -/

/-- C1: `is_valid` fails closed, checking its cases in the order the code
does: an absent token yields `(False, "Токен не найден")` ("not found"); a
present record with `active = False` yields `(False, "Токен деактивирован")`
("deactivated"); an active record whose `expires_at` timestamp is strictly
before `now` yields `(False, "Токен истёк")` ("expired") — each failure
leaving the store, and hence the record and its `used_count`, completely
unchanged.  On success (active, and no expiry or a future one) it returns
`(True, None)` and the store changes exactly at the validated token, whose
`used_count` is incremented by exactly one and whose `last_used` becomes
`now`, every other field and every other record untouched. -/
theorem is_valid_spec (now : Int) (store : Store) (token : String) :
    (dictGet store token = Option.none →
      is_valid now store token =
        (.ok (false, some "Токен не найден"), store)) ∧
    (∀ kvs, dictGet store token = some (.dict kvs) →
      dictGetD kvs "active" (.bool true) = .bool false →
      is_valid now store token =
        (.ok (false, some "Токен деактивирован"), store)) ∧
    (∀ kvs t, dictGet store token = some (.dict kvs) →
      truthy (dictGetD kvs "active" (.bool true)) = true →
      dictGetD kvs "expires_at" .none = .dt t → now > t →
      is_valid now store token =
        (.ok (false, some "Токен истёк"), store)) ∧
    (∀ kvs n, dictGet store token = some (.dict kvs) →
      truthy (dictGetD kvs "active" (.bool true)) = true →
      (dictGetD kvs "expires_at" .none = .none ∨
        ∃ t, dictGetD kvs "expires_at" .none = .dt t ∧ ¬now > t) →
      dictGetD kvs "used_count" (.int 0) = .int n →
      storeAllDicts store = true →
      ∃ kvs1,
        is_valid now store token =
          (.ok (true, Option.none), dictSet store token (.dict kvs1)) ∧
        dictGet kvs1 "used_count" = some (.int (n + 1)) ∧
        dictGet kvs1 "last_used" = some (.dt now) ∧
        dictGet kvs1 "created_at" = dictGet kvs "created_at" ∧
        dictGet kvs1 "expires_at" = dictGet kvs "expires_at" ∧
        dictGet kvs1 "active" = dictGet kvs "active" ∧
        dictGet kvs1 "description" = dictGet kvs "description" ∧
        ∀ u, u ≠ token →
          dictGet (dictSet store token (.dict kvs1)) u = dictGet store u) := by
  refine ⟨?_, ?_, ?_, ?_⟩
  · intro h
    simp [is_valid, h]
  · intro kvs h hact
    simp [is_valid, h, hact, truthy]
  · intro kvs t h hact hexp hgt
    simp only [is_valid, h, hact, hexp]
    simp [truthy, hgt]
  · intro kvs n h hact hor hu hall
    refine ⟨dictSet (dictSet kvs "used_count" (.int (n + 1)))
      "last_used" (.dt now), ?_, ?_, ?_, ?_, ?_, ?_, ?_, ?_⟩
    · obtain ⟨w, hw⟩ := saveTokens_ok
        (dictSet store token (.dict (dictSet (dictSet kvs "used_count"
          (.int (n + 1))) "last_used" (.dt now))))
        (storeAllDicts_set store token _ hall)
      rcases hor with he | ⟨t, he, hle⟩
      · simp only [is_valid, h, hact, he]
        simp [truthy, validGo, hu, pyIncr, hw]
      · simp only [is_valid, h, hact, he]
        simp [truthy, hle, validGo, hu, pyIncr, hw]
    · rw [dictGet_dictSet_ne _ _ _ _ (by decide), dictGet_dictSet_self]
    · rw [dictGet_dictSet_self]
    · rw [dictGet_dictSet_ne _ _ _ _ (by decide),
        dictGet_dictSet_ne _ _ _ _ (by decide)]
    · rw [dictGet_dictSet_ne _ _ _ _ (by decide),
        dictGet_dictSet_ne _ _ _ _ (by decide)]
    · rw [dictGet_dictSet_ne _ _ _ _ (by decide),
        dictGet_dictSet_ne _ _ _ _ (by decide)]
    · rw [dictGet_dictSet_ne _ _ _ _ (by decide),
        dictGet_dictSet_ne _ _ _ _ (by decide)]
    · intro u hu2
      exact dictGet_dictSet_ne _ _ _ _ hu2

/-- Witness for C1 at a concrete store: validating the fresh token of
`wStore` at time 10 succeeds and bumps `used_count` from 0 to 1. -/
theorem is_valid_spec_witness :
    ∃ kvs1,
      is_valid 10 wStore "tok" =
        (.ok (true, Option.none), dictSet wStore "tok" (.dict kvs1)) ∧
      dictGet kvs1 "used_count" = some (.int (0 + 1)) ∧
      dictGet kvs1 "last_used" = some (.dt 10) ∧
      dictGet kvs1 "created_at" = dictGet wKvs "created_at" ∧
      dictGet kvs1 "expires_at" = dictGet wKvs "expires_at" ∧
      dictGet kvs1 "active" = dictGet wKvs "active" ∧
      dictGet kvs1 "description" = dictGet wKvs "description" ∧
      ∀ u, u ≠ "tok" →
        dictGet (dictSet wStore "tok" (.dict kvs1)) u = dictGet wStore u :=
  (is_valid_spec 10 wStore "tok").2.2.2 wKvs 0 rfl rfl (Or.inl rfl) rfl rfl

/-! ## C2: the snapshot round-trip -/

/-- C2: before any validation, `c2store` (one fresh token, `last_used` null)
serializes to `c2saved` and reloading that exact content reproduces every
field.  But one successful validation sets `last_used` to a `datetime`, and
`_save_tokens` converts only `created_at` and `expires_at` to strings —
`json.dump` then raises `TypeError` on the leftover `datetime`, the write is
swallowed as a warning, and no snapshot of the post-validation store is ever
produced, so the round-trip of the spec is impossible for every store that
has recorded a use. -/
theorem save_roundtrip_bug :
    saveTokens c2store = .ok (some c2saved) ∧
    loadFromJson (.dict c2saved) = .ok c2store ∧
    is_valid 5 c2store "tok" = (.ok (true, Option.none), c2after) ∧
    saveTokens c2after = .ok Option.none :=
  ⟨rfl, rfl, rfl, rfl⟩

/-! ## C5: loading the initial store -/

/-- C5: an environment snapshot that parses as valid JSON but is not an
object — here the array `[1, 2]` — makes `_load_tokens` raise an uncaught
`AttributeError` (`data.items()` on a list) instead of degrading to the file
or to an empty store, whatever the on-disk file holds. -/
theorem load_tokens_bug :
    load_tokens (some (some (.list [.int 1, .int 2]))) FileSrc.missing =
      .error .attributeError ∧
    load_tokens (some (some (.list [.int 1, .int 2])))
      (FileSrc.content (some (.dict []))) = .error .attributeError :=
  ⟨rfl, rfl⟩

/-- A parsed environment snapshot decides the load alone: the file source is
never consulted. -/
theorem load_tokens_env_first (j : PyVal) (f1 f2 : FileSrc) :
    load_tokens (some (some j)) f1 = load_tokens (some (some j)) f2 := rfl

/-- An absent or unparsable environment snapshot falls through to the
file. -/
theorem load_tokens_fallback (f : FileSrc) :
    load_tokens (some Option.none) f = loadFile f ∧
    load_tokens Option.none f = loadFile f := ⟨rfl, rfl⟩

/-- A missing or unparsable file yields the empty store. -/
theorem loadFile_empty :
    loadFile FileSrc.missing = .ok [] ∧
    loadFile (FileSrc.content Option.none) = .ok [] := ⟨rfl, rfl⟩

/-! ## C6: duplicate creation -/

/-- C6 counterexample: the supplied token string `" tok"` already exists in
the store, yet `create_token` does not fail — `custom_token.strip()` turns it
into `"tok"`, the duplicate check misses, and a second record is inserted. -/
theorem create_dup_cex :
    dictGet c6store " tok" = some (okRec 0 PyVal.none true "" 0 PyVal.none) ∧
    create_token 0 "gen" c6store (some " tok") Option.none Option.none "" =
      (.ok "tok", c6after) :=
  ⟨rfl, rfl⟩

/-- C6 amended: the supplied string is stripped of surrounding whitespace
first; creation fails with the duplicate-token `ValueError` exactly when the
stripped string already exists, and the store is then unchanged (the raise
precedes every mutation). -/
theorem create_dup_spec (now : Int) (gen : String) (store : Store)
    (c : String) (days hours : Option Int) (descr : String)
    (hc : c ≠ "") (hdup : dictMem store (pytrim c) = true) :
    create_token now gen store (some c) days hours descr =
      (.error .valueError, store) := by
  simp [create_token, hc, hdup]

/-- Witness for C6 (amended): creating `"tok"` over a store that already
holds `"tok"` fails and leaves the store as it was. -/
theorem create_dup_spec_witness :
    create_token 0 "g" wStore (some "tok") Option.none Option.none "" =
      (.error .valueError, wStore) :=
  create_dup_spec 0 "g" wStore "tok" Option.none Option.none ""
    (by decide) rfl

/-! ## C7: time-to-live -/

/-- C7 counterexample: a ttl of zero days is treated as absent — the created
record's `expires_at` is `None` (never expires), not `now + 0`. -/
theorem create_ttl_cex :
    create_token 7 "g" [] Option.none (some 0) Option.none "" =
      (.ok "g", [("g", okRec 7 PyVal.none true "" 0 PyVal.none)]) ∧
    PyVal.none ≠ PyVal.dt (7 + 0 * 86400) :=
  ⟨rfl, by simp⟩

/-- C7 amended: with no ttl the record never expires; a nonzero whole number
of days gives `expires_at = now + days`, a nonzero whole number of hours
(with days absent or zero) gives `expires_at = now + hours`; but a ttl of
zero days or zero hours is treated as absent (Python truthiness), so the
record then never expires. -/
theorem create_ttl_spec (now : Int) (gen : String) (store : Store)
    (days hours : Option Int) (descr : String)
    (hnew : dictMem store gen = false) (hall : storeAllDicts store = true) :
    (∀ d, days = some d → d ≠ 0 →
      ∃ r, create_token now gen store Option.none days hours descr =
          (.ok gen, dictSet store gen (.dict r)) ∧
        dictGet r "expires_at" = some (.dt (now + d * 86400))) ∧
    (∀ h1, (days = Option.none ∨ days = some 0) → hours = some h1 → h1 ≠ 0 →
      ∃ r, create_token now gen store Option.none days hours descr =
          (.ok gen, dictSet store gen (.dict r)) ∧
        dictGet r "expires_at" = some (.dt (now + h1 * 3600))) ∧
    ((days = Option.none ∨ days = some 0) →
      (hours = Option.none ∨ hours = some 0) →
      ∃ r, create_token now gen store Option.none days hours descr =
          (.ok gen, dictSet store gen (.dict r)) ∧
        dictGet r "expires_at" = some PyVal.none) := by
  refine ⟨?_, ?_, ?_⟩
  · intro d hd hd0
    subst hd
    obtain ⟨w, hw⟩ := saveTokens_ok (dictSet store gen
      (.dict [("created_at", .dt now), ("expires_at", .dt (now + d * 86400)),
        ("active", .bool true), ("description", .str descr),
        ("used_count", .int 0), ("last_used", .none)]))
      (storeAllDicts_set store gen _ hall)
    refine ⟨[("created_at", .dt now), ("expires_at", .dt (now + d * 86400)),
      ("active", .bool true), ("description", .str descr),
      ("used_count", .int 0), ("last_used", .none)], ?_, rfl⟩
    simp [create_token, hnew, ttlExpiry, optTruthy, hd0, hw]
  · intro h1 hdn hh hh0
    subst hh
    obtain ⟨w, hw⟩ := saveTokens_ok (dictSet store gen
      (.dict [("created_at", .dt now), ("expires_at", .dt (now + h1 * 3600)),
        ("active", .bool true), ("description", .str descr),
        ("used_count", .int 0), ("last_used", .none)]))
      (storeAllDicts_set store gen _ hall)
    refine ⟨[("created_at", .dt now), ("expires_at", .dt (now + h1 * 3600)),
      ("active", .bool true), ("description", .str descr),
      ("used_count", .int 0), ("last_used", .none)], ?_, rfl⟩
    rcases hdn with hdn | hdn <;> subst hdn <;>
      simp [create_token, hnew, ttlExpiry, optTruthy, hh0, hw]
  · intro hdn hhn
    obtain ⟨w, hw⟩ := saveTokens_ok (dictSet store gen
      (.dict [("created_at", .dt now), ("expires_at", .none),
        ("active", .bool true), ("description", .str descr),
        ("used_count", .int 0), ("last_used", .none)]))
      (storeAllDicts_set store gen _ hall)
    refine ⟨[("created_at", .dt now), ("expires_at", .none),
      ("active", .bool true), ("description", .str descr),
      ("used_count", .int 0), ("last_used", .none)], ?_, rfl⟩
    rcases hdn with hdn | hdn <;> rcases hhn with hhn | hhn <;>
      subst hdn <;> subst hhn <;>
      simp [create_token, hnew, ttlExpiry, optTruthy, hw]

/-- Witness for C7 (amended): a two-day ttl at time 0 expires at 172800. -/
theorem create_ttl_spec_witness :
    ∃ r, create_token 0 "g" [] Option.none (some 2) Option.none "" =
        (.ok "g", dictSet [] "g" (.dict r)) ∧
      dictGet r "expires_at" = some (.dt (0 + 2 * 86400)) :=
  (create_ttl_spec 0 "g" [] (some 2) Option.none "" rfl rfl).1 2 rfl
    (by decide)

/-! ## C8: token extraction -/

/-- C8 counterexample: a JSON request whose body names the field `"TOKEN"`
(and whose form and query string both carry a `"token"` value) yields no
candidate: the code checks only the exact keys `"token"` and `"Token"`, and a
JSON request never falls through to the form or query sources. -/
theorem token_extract_cex :
    specExtractToken c8req = some (.str "abc") ∧
    get_token_from_request c8req = .ok Option.none ∧
    dualGet c8req.form = some "formtok" :=
  ⟨rfl, rfl, rfl⟩

/-- C8 amended: the candidate token comes from the parsed JSON body alone
when the request is JSON — `body.get("token") or body.get("Token")`, two
exact-case keys, returned even when it is `None` (no fall-through) — and only
non-JSON requests try the form and then the query string, with the same two
exact-case keys; none is returned when no source holds a truthy candidate. -/
theorem token_extract_spec :
    (∀ (j : Option PyVal) (f1 a1 f2 a2 : List (String × String)),
      get_token_from_request ⟨true, j, f1, a1⟩ =
        get_token_from_request ⟨true, j, f2, a2⟩) ∧
    (∀ kvs (f a : List (String × String)), truthy (.dict kvs) = true →
      get_token_from_request ⟨true, some (.dict kvs), f, a⟩ =
        .ok (pyOr (dictGet kvs "token") (dictGet kvs "Token"))) ∧
    (∀ (j : Option PyVal) (f a : List (String × String)),
      (optStrTruthy (dualGet f) = true →
        get_token_from_request ⟨false, j, f, a⟩ =
          .ok ((dualGet f).map PyVal.str)) ∧
      (optStrTruthy (dualGet f) = false → optStrTruthy (dualGet a) = true →
        get_token_from_request ⟨false, j, f, a⟩ =
          .ok ((dualGet a).map PyVal.str)) ∧
      (optStrTruthy (dualGet f) = false → optStrTruthy (dualGet a) = false →
        get_token_from_request ⟨false, j, f, a⟩ = .ok Option.none)) := by
  refine ⟨fun j f1 a1 f2 a2 => rfl, ?_, ?_⟩
  · intro kvs f a h
    simp [get_token_from_request, h]
  · intro j f a
    refine ⟨fun h1 => ?_, fun h1 h2 => ?_, fun h1 h2 => ?_⟩
    · simp [get_token_from_request, h1]
    · simp [get_token_from_request, h1, h2]
    · simp [get_token_from_request, h1, h2]

/-- Witness for C8 (amended): a JSON body with the exact key `"token"`
returns its value. -/
theorem token_extract_spec_witness :
    get_token_from_request ⟨true, some (.dict [("token", .str "x")]), [], []⟩ =
      .ok (pyOr (dictGet [("token", .str "x")] "token")
        (dictGet [("token", .str "x")] "Token")) :=
  token_extract_spec.2.1 [("token", .str "x")] [] [] rfl

/-! ## C10: listing -/

theorem listEntry_all (now : Int) (t : String)
    (kvs : List (String × PyVal)) (hshape : expShapeOK kvs = true) :
    ∃ d, listEntry now false t (.dict kvs) = .ok (some d) ∧
      tokField d = some (.str t) := by
  unfold expShapeOK at hshape
  cases hea : dictGetD kvs "expires_at" PyVal.none with
  | none =>
    exact ⟨buildListInfo t kvs PyVal.none,
      by simp [listEntry, hea, truthy], rfl⟩
  | dt t0 =>
    exact ⟨buildListInfo t kvs (PyVal.dt t0),
      by simp [listEntry, hea, truthy], rfl⟩
  | str s =>
    rw [hea] at hshape
    by_cases hs : s = ""
    · subst hs
      exact ⟨buildListInfo t kvs (PyVal.str ""),
        by simp [listEntry, hea, truthy], rfl⟩
    · have : (fromiso s).isSome = true := by
        simpa [hs] using hshape
      obtain ⟨t0, ht0⟩ := Option.isSome_iff_exists.mp this
      exact ⟨buildListInfo t kvs (PyVal.dt t0),
        by simp [listEntry, hea, truthy, hs, ht0], rfl⟩
  | bool b => rw [hea] at hshape; simp at hshape
  | int n => rw [hea] at hshape; simp at hshape
  | list xs => rw [hea] at hshape; simp at hshape
  | dict kvs2 => rw [hea] at hshape; simp at hshape

theorem listEntry_active (now : Int) (t : String)
    (kvs : List (String × PyVal)) (hshape : expShapeOK kvs = true) :
    ((recActive (.dict kvs) && !recExpired now (.dict kvs)) = true →
      ∃ d, listEntry now true t (.dict kvs) = .ok (some d) ∧
        tokField d = some (.str t)) ∧
    ((recActive (.dict kvs) && !recExpired now (.dict kvs)) = false →
      listEntry now true t (.dict kvs) = .ok Option.none) := by
  unfold expShapeOK at hshape
  by_cases hA : truthy (dictGetD kvs "active" (.bool true)) = true
  · cases hea : dictGetD kvs "expires_at" PyVal.none with
    | none =>
      refine ⟨fun _ => ⟨buildListInfo t kvs PyVal.none,
        by simp only [listEntry, hA, hea]; simp [truthy], rfl⟩, fun hc => ?_⟩
      simp [recActive, recExpired, hA, hea] at hc
    | dt t0 =>
      by_cases hE : now > t0
      · refine ⟨fun hc => ?_, fun _ => by simp only [listEntry, hA, hea]; simp [truthy, hE]⟩
        simp [recActive, recExpired, hA, hea, hE] at hc
      · refine ⟨fun _ => ⟨buildListInfo t kvs (PyVal.dt t0),
          by simp only [listEntry, hA, hea]; simp [truthy, hE], rfl⟩, fun hc => ?_⟩
        simp [recActive, recExpired, hA, hea, hE] at hc
    | str s =>
      rw [hea] at hshape
      by_cases hs : s = ""
      · subst hs
        refine ⟨fun _ => ⟨buildListInfo t kvs (PyVal.str ""),
          by simp only [listEntry, hA, hea]; simp [truthy], rfl⟩, fun hc => ?_⟩
        simp [recActive, recExpired, hA, hea, fromiso] at hc
      · have : (fromiso s).isSome = true := by
          simpa [hs] using hshape
        obtain ⟨t0, ht0⟩ := Option.isSome_iff_exists.mp this
        by_cases hE : now > t0
        · refine ⟨fun hc => ?_,
            fun _ => by simp only [listEntry, hA, hea]; simp [truthy, hs, ht0, hE]⟩
          simp [recActive, recExpired, hA, hea, ht0, hE] at hc
        · refine ⟨fun _ => ⟨buildListInfo t kvs (PyVal.dt t0),
            by simp only [listEntry, hA, hea]; simp [truthy, hs, ht0, hE], rfl⟩,
            fun hc => ?_⟩
          simp [recActive, recExpired, hA, hea, ht0, hE] at hc
    | bool b => rw [hea] at hshape; simp at hshape
    | int n => rw [hea] at hshape; simp at hshape
    | list xs => rw [hea] at hshape; simp at hshape
    | dict kvs2 => rw [hea] at hshape; simp at hshape
  · have hA2 : truthy (dictGetD kvs "active" (.bool true)) = false :=
      Bool.not_eq_true _ |>.mp hA
    refine ⟨fun hc => ?_, fun _ => by simp [listEntry, hA2]⟩
    simp [recActive, hA2] at hc

/-- C10: listing with `active_only` keeps exactly the records that are both
active and not past their expiry — an expired record is excluded even when
its `active` flag is true — while listing without the option keeps every
record, expired ones included.  Stated over stores whose records have a
well-formed `expires_at` (absent, null, a timestamp, or a parsable or empty
string), on which the listing code cannot raise. -/
theorem list_tokens_spec (now : Int) (store : Store)
    (hwf : ∀ p ∈ store, ∃ kvs, p.2 = PyVal.dict kvs ∧ expShapeOK kvs = true) :
    ∃ la lf, list_tokens now store true = .ok la ∧
      list_tokens now store false = .ok lf ∧
      la.map tokField =
        (store.filter (fun p => recActive p.2 && !recExpired now p.2)).map
          (fun p => some (PyVal.str p.1)) ∧
      lf.map tokField = store.map (fun p => some (PyVal.str p.1)) := by
  induction store with
  | nil => exact ⟨[], [], rfl, rfl, rfl, rfl⟩
  | cons p rest ih =>
    obtain ⟨t, info⟩ := p
    obtain ⟨kvs, hinfo, hshape⟩ := hwf (t, info) (List.mem_cons_self _ _)
    simp only at hinfo
    subst hinfo
    obtain ⟨la, lf, h1, h2, h3, h4⟩ :=
      ih (fun q hq => hwf q (List.mem_cons_of_mem _ hq))
    obtain ⟨d2, hd2, htok2⟩ := listEntry_all now t kvs hshape
    by_cases hcase : (recActive (PyVal.dict kvs) &&
        !recExpired now (PyVal.dict kvs)) = true
    · obtain ⟨d1, hd1, htok1⟩ := (listEntry_active now t kvs hshape).1 hcase
      refine ⟨d1 :: la, d2 :: lf, ?_, ?_, ?_, ?_⟩
      · simp [list_tokens, hd1, h1]
      · simp [list_tokens, hd2, h2]
      · simp [List.filter_cons, hcase, htok1, h3]
      · simp [htok2, h4]
    · have hd1 := (listEntry_active now t kvs hshape).2
        (Bool.not_eq_true _ |>.mp hcase)
      refine ⟨la, d2 :: lf, ?_, ?_, ?_, ?_⟩
      · simp [list_tokens, hd1, h1]
      · simp [list_tokens, hd2, h2]
      · simp [List.filter_cons, Bool.not_eq_true _ |>.mp hcase, h3]
      · simp [htok2, h4]

/-- Witness for C10 at `c10store`: the expired-but-active token `"old"` is
excluded by the active-only listing at time 5 and included without it. -/
theorem list_tokens_spec_witness :
    ∃ la lf, list_tokens 5 c10store true = .ok la ∧
      list_tokens 5 c10store false = .ok lf ∧
      la.map tokField =
        (c10store.filter (fun p => recActive p.2 && !recExpired 5 p.2)).map
          (fun p => some (PyVal.str p.1)) ∧
      lf.map tokField = c10store.map (fun p => some (PyVal.str p.1)) :=
  list_tokens_spec 5 c10store (by
    intro p hp
    cases hp with
    | head => exact ⟨_, rfl, rfl⟩
    | tail _ hq =>
      cases hq with
      | head => exact ⟨_, rfl, rfl⟩
      | tail _ hr => cases hr)

/-! ## C3 and C4: sync reconciler lemmas -/

theorem frame4_refl (r : List (String × PyVal)) : frame4 r r :=
  ⟨rfl, rfl, rfl, rfl⟩

theorem frame4_trans (r1 r2 r3 : List (String × PyVal))
    (h1 : frame4 r1 r2) (h2 : frame4 r2 r3) : frame4 r1 r3 :=
  ⟨h2.1.trans h1.1, h2.2.1.trans h1.2.1, h2.2.2.1.trans h1.2.2.1,
   h2.2.2.2.trans h1.2.2.2⟩

/-- A dict descriptor never aborts the batch: `processEntry` always succeeds
on it (the inner `try` swallows every exception). -/
theorem processEntry_dict_ok (now : Int) (store : Store)
    (kvs : List (String × PyVal)) :
    ∃ s1, processEntry now store (.dict kvs) = .ok s1 := by
  unfold processEntry
  by_cases ht : truthy (dictGetD kvs "token" PyVal.none) = false
  · exact ⟨store, by simp [ht]⟩
  · have ht2 : truthy (dictGetD kvs "token" PyVal.none) = true := by
      simpa using ht
    cases htv : dictGetD kvs "token" PyVal.none with
    | str token =>
      rw [htv] at ht2
      cases hb : entryBody now store token kvs with
      | ok s1 => exact ⟨s1, by simp [htv, ht2, hb]⟩
      | error e => exact ⟨store, by simp [htv, ht2, hb]⟩
    | none => rw [htv] at ht2; simp [truthy] at ht2
    | bool b => rw [htv] at ht2; exact ⟨store, by simp [htv, ht2]⟩
    | int n => rw [htv] at ht2; exact ⟨store, by simp [htv, ht2]⟩
    | dt t0 => rw [htv] at ht2; exact ⟨store, by simp [htv, ht2]⟩
    | list xs => rw [htv] at ht2; exact ⟨store, by simp [htv, ht2]⟩
    | dict kvs2 => rw [htv] at ht2; exact ⟨store, by simp [htv, ht2]⟩

/-- `entryBody` only ever writes the key it was given: every other key of the
store is untouched. -/
theorem entryBody_ne (now : Int) (store : Store) (token : String)
    (kvs : List (String × PyVal)) (s2 : Store) (t : String)
    (h : entryBody now store token kvs = .ok s2) (hne : t ≠ token) :
    dictGet s2 t = dictGet store t := by
  unfold entryBody at h
  by_cases hm : dictMem store token = false
  · rw [if_pos hm] at h
    cases hp1 : parseTsField kvs "expires_at" with
    | error e => rw [hp1] at h; cases h
    | ok ea =>
      rw [hp1] at h
      cases hp2 : parseTsField kvs "created_at" with
      | error e => rw [hp2] at h; cases h
      | ok ca =>
        rw [hp2] at h
        cases h
        exact dictGet_dictSet_ne _ _ _ _ hne
  · rw [if_neg hm] at h
    by_cases ha : dictMem kvs "active" = true
    · rw [if_pos ha] at h
      cases hg : dictGet store token with
      | none => rw [hg] at h; dsimp only at h; cases h
      | some v =>
        rw [hg] at h
        cases v with
        | dict rkvs =>
          dsimp only at h
          by_cases hd : dictMem kvs "description" = true
          · rw [if_pos hd] at h
            rw [dictGet_dictSet_self] at h
            dsimp only at h
            cases h
            rw [dictGet_dictSet_ne _ _ _ _ hne,
              dictGet_dictSet_ne _ _ _ _ hne]
          · rw [if_neg hd] at h
            cases h
            exact dictGet_dictSet_ne _ _ _ _ hne
        | none => dsimp only at h; cases h
        | bool b => dsimp only at h; cases h
        | int n => dsimp only at h; cases h
        | str s => dsimp only at h; cases h
        | dt t0 => dsimp only at h; cases h
        | list xs => dsimp only at h; cases h
    · rw [if_neg ha] at h
      dsimp only at h
      by_cases hd : dictMem kvs "description" = true
      · rw [if_pos hd] at h
        cases hg : dictGet store token with
        | none => rw [hg] at h; cases h
        | some v =>
          rw [hg] at h
          cases v with
          | dict rkvs =>
            dsimp only at h
            cases h
            exact dictGet_dictSet_ne _ _ _ _ hne
          | none => dsimp only at h; cases h
          | bool b => dsimp only at h; cases h
          | int n => dsimp only at h; cases h
          | str s => dsimp only at h; cases h
          | dt t0 => dsimp only at h; cases h
          | list xs => dsimp only at h; cases h
      · rw [if_neg hd] at h
        cases h
        rfl

/-- A descriptor that does not carry the token string `t` leaves the binding
of `t` exactly as it was. -/
theorem processEntry_other_key (now : Int) (store : Store)
    (kvs : List (String × PyVal)) (s1 : Store) (t : String)
    (hne : dictGetD kvs "token" PyVal.none ≠ PyVal.str t)
    (h : processEntry now store (.dict kvs) = .ok s1) :
    dictGet s1 t = dictGet store t := by
  unfold processEntry at h
  dsimp only at h
  by_cases ht : truthy (dictGetD kvs "token" PyVal.none) = false
  · rw [if_pos ht] at h
    cases h
    rfl
  · rw [if_neg ht] at h
    cases htv : dictGetD kvs "token" PyVal.none with
    | str token =>
      rw [htv] at h
      dsimp only at h
      have htk : t ≠ token := by
        intro he
        exact hne (by rw [htv, he])
      cases hb : entryBody now store token kvs with
      | ok s2 =>
        rw [hb] at h
        cases h
        exact entryBody_ne now store token kvs s1 t hb htk
      | error e =>
        rw [hb] at h
        cases h
        rfl
    | none => rw [htv] at h; cases h; rfl
    | bool b => rw [htv] at h; cases h; rfl
    | int n => rw [htv] at h; cases h; rfl
    | dt t0 => rw [htv] at h; cases h; rfl
    | list xs => rw [htv] at h; cases h; rfl
    | dict kvs2 => rw [htv] at h; cases h; rfl

/-- The update path of `entryBody` touches at most the `active` and
`description` fields of the existing record. -/
theorem entryBody_frame (now : Int) (store : Store) (token : String)
    (kvs : List (String × PyVal)) (s2 : Store) (r : List (String × PyVal))
    (h : entryBody now store token kvs = .ok s2)
    (hg : dictGet store token = some (.dict r)) :
    ∃ r1, dictGet s2 token = some (.dict r1) ∧ frame4 r r1 := by
  unfold entryBody at h
  have hm : ¬dictMem store token = false := by
    simp [dictMem, hg]
  rw [if_neg hm] at h
  by_cases ha : dictMem kvs "active" = true
  · rw [if_pos ha, hg] at h
    dsimp only at h
    by_cases hd : dictMem kvs "description" = true
    · rw [if_pos hd, dictGet_dictSet_self] at h
      dsimp only at h
      cases h
      refine ⟨_, dictGet_dictSet_self _ _ _, ?_, ?_, ?_, ?_⟩ <;>
        rw [dictGet_dictSet_ne _ _ _ _ (by decide),
          dictGet_dictSet_ne _ _ _ _ (by decide)]
    · rw [if_neg hd] at h
      cases h
      refine ⟨_, dictGet_dictSet_self _ _ _, ?_, ?_, ?_, ?_⟩ <;>
        rw [dictGet_dictSet_ne _ _ _ _ (by decide)]
  · rw [if_neg ha] at h
    dsimp only at h
    by_cases hd : dictMem kvs "description" = true
    · rw [if_pos hd, hg] at h
      dsimp only at h
      cases h
      refine ⟨_, dictGet_dictSet_self _ _ _, ?_, ?_, ?_, ?_⟩ <;>
        rw [dictGet_dictSet_ne _ _ _ _ (by decide)]
    · rw [if_neg hd] at h
      cases h
      exact ⟨r, hg, frame4_refl r⟩

/-- One reconciliation step never changes the `used_count`, `last_used`,
`created_at` or `expires_at` of a record already in the store. -/
theorem processEntry_frame (now : Int) (store : Store) (e : PyVal)
    (s1 : Store) (t : String) (r : List (String × PyVal))
    (h : processEntry now store e = .ok s1)
    (hg : dictGet store t = some (.dict r)) :
    ∃ r1, dictGet s1 t = some (.dict r1) ∧ frame4 r r1 := by
  cases e with
  | dict kvs =>
    by_cases htv : dictGetD kvs "token" PyVal.none = PyVal.str t
    · unfold processEntry at h
      dsimp only at h
      rw [htv] at h
      dsimp only at h
      by_cases htt : truthy (PyVal.str t) = false
      · rw [if_pos htt] at h
        cases h
        exact ⟨r, hg, frame4_refl r⟩
      · rw [if_neg htt] at h
        cases hb : entryBody now store t kvs with
        | ok s2 =>
          rw [hb] at h
          cases h
          exact entryBody_frame now store t kvs s1 r hb hg
        | error e2 =>
          rw [hb] at h
          cases h
          exact ⟨r, hg, frame4_refl r⟩
    · have := processEntry_other_key now store kvs s1 t htv h
      rw [this]
      exact ⟨r, hg, frame4_refl r⟩
  | none => simp [processEntry] at h
  | bool b => simp [processEntry] at h
  | int n => simp [processEntry] at h
  | str s => simp [processEntry] at h
  | dt t0 => simp [processEntry] at h
  | list xs => simp [processEntry] at h

/-- The frame of `processEntry` extends along the whole loop, even when a
later descriptor aborts the batch. -/
theorem syncLoop_frame (now : Int) (xs : List PyVal) :
    ∀ (store : Store) (t : String) (r : List (String × PyVal)),
      dictGet store t = some (.dict r) →
      ∃ r1, dictGet (syncLoop now store xs).1 t = some (.dict r1) ∧
        frame4 r r1 := by
  induction xs with
  | nil =>
    intro store t r hg
    exact ⟨r, hg, frame4_refl r⟩
  | cons e rest ih =>
    intro store t r hg
    cases hp : processEntry now store e with
    | ok s1 =>
      obtain ⟨r1, hr1, hf1⟩ := processEntry_frame now store e s1 t r hp hg
      obtain ⟨r2, hr2, hf2⟩ := ih s1 t r1 hr1
      exact ⟨r2, by simp [syncLoop, hp, hr2], frame4_trans r r1 r2 hf1 hf2⟩
    | error err =>
      exact ⟨r, by simp [syncLoop, hp, hg], frame4_refl r⟩

theorem syncAfter_snd (s : Store) (n : Nat) : (syncAfter s n).2 = s := by
  unfold syncAfter
  cases h : saveTokens s with
  | ok w => simp
  | error e => simp

theorem sync_frame (now : Int) (store : Store) (data : Option PyVal)
    (t : String) (r : List (String × PyVal))
    (hg : dictGet store t = some (.dict r)) :
    ∃ r1, dictGet (sync_tokens now store data).2 t = some (.dict r1) ∧
      frame4 r r1 := by
  cases data with
  | none => exact ⟨r, by simpa [sync_tokens] using hg, frame4_refl r⟩
  | some d =>
    by_cases htr : truthy d = true
    · cases hc : pyContains "tokens" d with
      | error e =>
        exact ⟨r, by simpa [sync_tokens, htr, hc] using hg, frame4_refl r⟩
      | ok b =>
        cases b with
        | false =>
          exact ⟨r, by simpa [sync_tokens, htr, hc] using hg, frame4_refl r⟩
        | true =>
          cases hi : pyIndex d "tokens" with
          | error e =>
            exact ⟨r, by simpa [sync_tokens, htr, hc, hi] using hg,
              frame4_refl r⟩
          | ok v =>
            cases v with
            | list xs =>
              obtain ⟨r2, hr2, hf2⟩ := syncLoop_frame now xs store t r hg
              cases hl : syncLoop now store xs with
              | mk s1 eo =>
                rw [hl] at hr2
                cases eo with
                | some err =>
                  exact ⟨r2, by simpa [sync_tokens, htr, hc, hi, hl] using hr2,
                    hf2⟩
                | none =>
                  exact ⟨r2, by
                    simpa [sync_tokens, htr, hc, hi, hl, syncAfter_snd]
                      using hr2, hf2⟩
            | none =>
              exact ⟨r, by simpa [sync_tokens, htr, hc, hi] using hg,
                frame4_refl r⟩
            | bool b2 =>
              exact ⟨r, by simpa [sync_tokens, htr, hc, hi] using hg,
                frame4_refl r⟩
            | int n =>
              exact ⟨r, by simpa [sync_tokens, htr, hc, hi] using hg,
                frame4_refl r⟩
            | dt t0 =>
              exact ⟨r, by simpa [sync_tokens, htr, hc, hi] using hg,
                frame4_refl r⟩
            | str s =>
              by_cases hs : s = ""
              · exact ⟨r, by
                  simpa [sync_tokens, htr, hc, hi, hs, syncAfter_snd]
                    using hg, frame4_refl r⟩
              · exact ⟨r, by simpa [sync_tokens, htr, hc, hi, hs] using hg,
                  frame4_refl r⟩
            | dict kvs2 =>
              by_cases hk : kvs2.isEmpty = true
              · exact ⟨r, by
                  simpa [sync_tokens, htr, hc, hi, hk, syncAfter_snd]
                    using hg, frame4_refl r⟩
              · exact ⟨r, by simpa [sync_tokens, htr, hc, hi, hk] using hg,
                  frame4_refl r⟩
    · have htr2 : truthy d = false := by simpa using htr
      exact ⟨r, by simpa [sync_tokens, htr2] using hg, frame4_refl r⟩

/-- Full characterisation of the update path of `entryBody` on a known
token: `active` and `description` take the descriptor's value exactly when
the descriptor carries them, the other four fields and every other store key
are untouched. -/
theorem entryBody_known (now : Int) (store : Store) (token : String)
    (kvs : List (String × PyVal)) (r : List (String × PyVal))
    (hg : dictGet store token = some (.dict r)) :
    ∃ s1, entryBody now store token kvs = .ok s1 ∧
      ∃ r1, dictGet s1 token = some (.dict r1) ∧ frame4 r r1 ∧
        dictGet r1 "active" =
          (if dictMem kvs "active" then
            some (dictGetD kvs "active" PyVal.none)
          else dictGet r "active") ∧
        dictGet r1 "description" =
          (if dictMem kvs "description" then
            some (dictGetD kvs "description" PyVal.none)
          else dictGet r "description") ∧
        ∀ u, u ≠ token → dictGet s1 u = dictGet store u := by
  have hm : ¬dictMem store token = false := by
    simp [dictMem, hg]
  unfold entryBody
  rw [if_neg hm]
  by_cases ha : dictMem kvs "active" = true
  · rw [if_pos ha, hg]
    dsimp only
    by_cases hd : dictMem kvs "description" = true
    · rw [if_pos hd, dictGet_dictSet_self]
      dsimp only
      refine ⟨_, rfl, _, dictGet_dictSet_self _ _ _,
        ⟨?_, ?_, ?_, ?_⟩, ?_, ?_, ?_⟩
      · rw [dictGet_dictSet_ne _ _ _ _ (by decide),
          dictGet_dictSet_ne _ _ _ _ (by decide)]
      · rw [dictGet_dictSet_ne _ _ _ _ (by decide),
          dictGet_dictSet_ne _ _ _ _ (by decide)]
      · rw [dictGet_dictSet_ne _ _ _ _ (by decide),
          dictGet_dictSet_ne _ _ _ _ (by decide)]
      · rw [dictGet_dictSet_ne _ _ _ _ (by decide),
          dictGet_dictSet_ne _ _ _ _ (by decide)]
      · rw [dictGet_dictSet_ne _ _ _ _ (by decide), dictGet_dictSet_self,
          if_pos ha]
      · rw [dictGet_dictSet_self, if_pos hd]
      · intro u hu
        rw [dictGet_dictSet_ne _ _ _ _ hu, dictGet_dictSet_ne _ _ _ _ hu]
    · rw [if_neg hd]
      refine ⟨_, rfl, _, dictGet_dictSet_self _ _ _,
        ⟨?_, ?_, ?_, ?_⟩, ?_, ?_, ?_⟩
      · rw [dictGet_dictSet_ne _ _ _ _ (by decide)]
      · rw [dictGet_dictSet_ne _ _ _ _ (by decide)]
      · rw [dictGet_dictSet_ne _ _ _ _ (by decide)]
      · rw [dictGet_dictSet_ne _ _ _ _ (by decide)]
      · rw [dictGet_dictSet_self, if_pos ha]
      · rw [dictGet_dictSet_ne _ _ _ _ (by decide), if_neg hd]
      · intro u hu
        rw [dictGet_dictSet_ne _ _ _ _ hu]
  · rw [if_neg ha]
    dsimp only
    by_cases hd : dictMem kvs "description" = true
    · rw [if_pos hd, hg]
      dsimp only
      refine ⟨_, rfl, _, dictGet_dictSet_self _ _ _,
        ⟨?_, ?_, ?_, ?_⟩, ?_, ?_, ?_⟩
      · rw [dictGet_dictSet_ne _ _ _ _ (by decide)]
      · rw [dictGet_dictSet_ne _ _ _ _ (by decide)]
      · rw [dictGet_dictSet_ne _ _ _ _ (by decide)]
      · rw [dictGet_dictSet_ne _ _ _ _ (by decide)]
      · rw [dictGet_dictSet_ne _ _ _ _ (by decide), if_neg ha]
      · rw [dictGet_dictSet_self, if_pos hd]
      · intro u hu
        rw [dictGet_dictSet_ne _ _ _ _ hu]
    · rw [if_neg hd]
      exact ⟨store, rfl, r, hg, frame4_refl r, by rw [if_neg ha],
        by rw [if_neg hd], fun u hu => rfl⟩

/-- `processEntry` on a well-formed descriptor naming a known token. -/
theorem processEntry_known (now : Int) (store : Store)
    (kvs : List (String × PyVal)) (token : String)
    (r : List (String × PyVal))
    (htv : dictGetD kvs "token" PyVal.none = PyVal.str token)
    (hne : token ≠ "") (hg : dictGet store token = some (.dict r)) :
    ∃ s1, processEntry now store (.dict kvs) = .ok s1 ∧
      ∃ r1, dictGet s1 token = some (.dict r1) ∧ frame4 r r1 ∧
        dictGet r1 "active" =
          (if dictMem kvs "active" then
            some (dictGetD kvs "active" PyVal.none)
          else dictGet r "active") ∧
        dictGet r1 "description" =
          (if dictMem kvs "description" then
            some (dictGetD kvs "description" PyVal.none)
          else dictGet r "description") ∧
        ∀ u, u ≠ token → dictGet s1 u = dictGet store u := by
  obtain ⟨s1, hb, rest⟩ := entryBody_known now store token kvs r hg
  refine ⟨s1, ?_, rest⟩
  unfold processEntry
  dsimp only
  rw [htv]
  dsimp only
  rw [if_neg (show ¬truthy (PyVal.str token) = false by simp [truthy, hne])]
  rw [hb]

/-- `processEntry` on a well-formed descriptor naming an unknown token:
exactly the record of the sync insert path is added. -/
theorem processEntry_insert (now : Int) (store : Store)
    (kvs : List (String × PyVal)) (token : String) (ea caO : Option Int)
    (htv : dictGetD kvs "token" PyVal.none = PyVal.str token)
    (hne : token ≠ "") (hg : dictGet store token = Option.none)
    (hpe : parseTsField kvs "expires_at" = .ok ea)
    (hpc : parseTsField kvs "created_at" = .ok caO) :
    processEntry now store (.dict kvs) =
      .ok (dictSet store token (mkSyncRec kvs ea (caVal now caO))) := by
  unfold processEntry
  dsimp only
  rw [htv]
  dsimp only
  rw [if_neg (show ¬truthy (PyVal.str token) = false by simp [truthy, hne])]
  unfold entryBody
  rw [if_pos (show dictMem store token = false by simp [dictMem, hg]),
    hpe, hpc]

/-- A run of descriptors none of which carries the token `t` succeeds and
leaves the binding of `t` unchanged. -/
theorem syncLoop_other (now : Int) (t : String) (xs : List PyVal) :
    ∀ store : Store, (∀ e1 ∈ xs, entryTokenNe t e1) →
      ∃ sfin, syncLoop now store xs = (sfin, Option.none) ∧
        dictGet sfin t = dictGet store t := by
  induction xs with
  | nil =>
    intro store _
    exact ⟨store, rfl, rfl⟩
  | cons e rest ih =>
    intro store h
    obtain ⟨kvs, he, hne⟩ := h e (List.mem_cons_self _ _)
    subst he
    obtain ⟨s1, hp⟩ := processEntry_dict_ok now store kvs
    obtain ⟨sfin, hl, hkeep⟩ :=
      ih s1 (fun e1 he1 => h e1 (List.mem_cons_of_mem _ he1))
    refine ⟨sfin, by simp [syncLoop, hp, hl], ?_⟩
    rw [hkeep, processEntry_other_key now store kvs s1 t hne hp]

/-- Folding a batch that carries exactly one descriptor for the unknown
token inserts precisely the sync-insert record for it, whatever the other
(dict) descriptors do elsewhere. -/
theorem syncLoop_insert (now : Int) (token : String)
    (kvs : List (String × PyVal)) (ea caO : Option Int)
    (post : List PyVal) (pre : List PyVal) :
    ∀ store : Store,
      (∀ e1 ∈ pre, entryTokenNe token e1) →
      (∀ e1 ∈ post, entryTokenNe token e1) →
      dictGetD kvs "token" PyVal.none = PyVal.str token → token ≠ "" →
      dictGet store token = Option.none →
      parseTsField kvs "expires_at" = .ok ea →
      parseTsField kvs "created_at" = .ok caO →
      ∃ sfin,
        syncLoop now store (pre ++ PyVal.dict kvs :: post) =
          (sfin, Option.none) ∧
        dictGet sfin token =
          some (mkSyncRec kvs ea (caVal now caO)) := by
  induction pre with
  | nil =>
    intro store _ hpost htv hne hg hpe hpc
    have hp := processEntry_insert now store kvs token ea caO htv hne hg hpe hpc
    obtain ⟨sfin, hl, hkeep⟩ := syncLoop_other now token post
      (dictSet store token (mkSyncRec kvs ea (caVal now caO))) hpost
    refine ⟨sfin, by simp [syncLoop, hp, hl], ?_⟩
    rw [hkeep, dictGet_dictSet_self]
  | cons e0 pre1 ih =>
    intro store hpre hpost htv hne hg hpe hpc
    obtain ⟨kvs0, he0, hne0⟩ := hpre e0 (List.mem_cons_self _ _)
    subst he0
    obtain ⟨s1, hp0⟩ := processEntry_dict_ok now store kvs0
    have hkeep0 := processEntry_other_key now store kvs0 s1 token hne0 hp0
    obtain ⟨sfin, hl, hfind⟩ := ih s1
      (fun e1 he1 => hpre e1 (List.mem_cons_of_mem _ he1)) hpost htv hne
      (hkeep0.trans hg) hpe hpc
    exact ⟨sfin, by simp [List.cons_append, syncLoop, hp0, hl], hfind⟩

/-- `entryBody` keeps every record a dict. -/
theorem entryBody_allDicts (now : Int) (store : Store) (token : String)
    (kvs : List (String × PyVal)) (s2 : Store)
    (h : entryBody now store token kvs = .ok s2)
    (hall : storeAllDicts store = true) : storeAllDicts s2 = true := by
  unfold entryBody at h
  by_cases hm : dictMem store token = false
  · rw [if_pos hm] at h
    cases hp1 : parseTsField kvs "expires_at" with
    | error e => rw [hp1] at h; cases h
    | ok ea =>
      rw [hp1] at h
      cases hp2 : parseTsField kvs "created_at" with
      | error e => rw [hp2] at h; cases h
      | ok ca =>
        rw [hp2] at h
        dsimp only at h
        cases h
        exact storeAllDicts_set store token _ hall
  · rw [if_neg hm] at h
    by_cases ha : dictMem kvs "active" = true
    · rw [if_pos ha] at h
      cases hg : dictGet store token with
      | none => rw [hg] at h; dsimp only at h; cases h
      | some v =>
        rw [hg] at h
        cases v with
        | dict rkvs =>
          dsimp only at h
          by_cases hd : dictMem kvs "description" = true
          · rw [if_pos hd, dictGet_dictSet_self] at h
            dsimp only at h
            cases h
            exact storeAllDicts_set _ token _
              (storeAllDicts_set store token _ hall)
          · rw [if_neg hd] at h
            cases h
            exact storeAllDicts_set store token _ hall
        | none => dsimp only at h; cases h
        | bool b => dsimp only at h; cases h
        | int n => dsimp only at h; cases h
        | str s => dsimp only at h; cases h
        | dt t0 => dsimp only at h; cases h
        | list xs => dsimp only at h; cases h
    · rw [if_neg ha] at h
      dsimp only at h
      by_cases hd : dictMem kvs "description" = true
      · rw [if_pos hd] at h
        cases hg : dictGet store token with
        | none => rw [hg] at h; cases h
        | some v =>
          rw [hg] at h
          cases v with
          | dict rkvs =>
            dsimp only at h
            cases h
            exact storeAllDicts_set store token _ hall
          | none => dsimp only at h; cases h
          | bool b => dsimp only at h; cases h
          | int n => dsimp only at h; cases h
          | str s => dsimp only at h; cases h
          | dt t0 => dsimp only at h; cases h
          | list xs => dsimp only at h; cases h
      · rw [if_neg hd] at h
        cases h
        exact hall

/-- The reconciliation loop keeps every record a dict. -/
theorem processEntry_allDicts (now : Int) (store : Store) (e : PyVal)
    (s1 : Store) (h : processEntry now store e = .ok s1)
    (hall : storeAllDicts store = true) : storeAllDicts s1 = true := by
  cases e with
  | dict kvs =>
    unfold processEntry at h
    dsimp only at h
    by_cases ht : truthy (dictGetD kvs "token" PyVal.none) = false
    · rw [if_pos ht] at h
      cases h
      exact hall
    · rw [if_neg ht] at h
      cases htv : dictGetD kvs "token" PyVal.none with
      | str token =>
        rw [htv] at h
        dsimp only at h
        cases hb : entryBody now store token kvs with
        | ok s2 =>
          rw [hb] at h
          cases h
          exact entryBody_allDicts now store token kvs s1 hb hall
        | error e2 =>
          rw [hb] at h
          cases h
          exact hall
      | none => rw [htv] at h; dsimp only at h; cases h; exact hall
      | bool b => rw [htv] at h; dsimp only at h; cases h; exact hall
      | int n => rw [htv] at h; dsimp only at h; cases h; exact hall
      | dt t0 => rw [htv] at h; dsimp only at h; cases h; exact hall
      | list xs => rw [htv] at h; dsimp only at h; cases h; exact hall
      | dict kvs2 => rw [htv] at h; dsimp only at h; cases h; exact hall
  | none => simp [processEntry] at h
  | bool b => simp [processEntry] at h
  | int n => simp [processEntry] at h
  | str s => simp [processEntry] at h
  | dt t0 => simp [processEntry] at h
  | list xs => simp [processEntry] at h

/-- A batch of dict descriptors runs to the end of the loop and keeps every
record a dict. -/
theorem syncLoop_dicts_ok (now : Int) (xs : List PyVal) :
    ∀ store : Store, (∀ e1 ∈ xs, ∃ kvs, e1 = PyVal.dict kvs) →
      storeAllDicts store = true →
      ∃ sfin, syncLoop now store xs = (sfin, Option.none) ∧
        storeAllDicts sfin = true := by
  induction xs with
  | nil =>
    intro store _ hall
    exact ⟨store, rfl, hall⟩
  | cons e rest ih =>
    intro store h hall
    obtain ⟨kvs, he⟩ := h e (List.mem_cons_self _ _)
    subst he
    obtain ⟨s1, hp⟩ := processEntry_dict_ok now store kvs
    have hall1 := processEntry_allDicts now store _ s1 hp hall
    obtain ⟨sfin, hl, hfall⟩ :=
      ih s1 (fun e1 he1 => h e1 (List.mem_cons_of_mem _ he1)) hall1
    exact ⟨sfin, by simp [syncLoop, hp, hl], hfall⟩

/-- C3: folding a sync batch (a) never changes the `used_count`, `last_used`,
`created_at` or `expires_at` of any record already in the store, whatever the
batch holds; (b) a descriptor carrying a known token updates exactly the
`active` and `description` fields, each only when the descriptor carries it,
and touches no other key; (c) a batch whose only descriptor for an unknown
token string is well formed inserts for it exactly the record built from the
descriptor, with `active` defaulting to true and `used_count` to the
descriptor's value or zero. -/
theorem sync_merge_spec :
    (∀ (now : Int) (store : Store) (data : Option PyVal) (t : String)
        (r : List (String × PyVal)),
      dictGet store t = some (.dict r) →
      ∃ r1, dictGet (sync_tokens now store data).2 t = some (.dict r1) ∧
        frame4 r r1) ∧
    (∀ (now : Int) (store : Store) (kvs : List (String × PyVal))
        (token : String) (r : List (String × PyVal)),
      dictGetD kvs "token" PyVal.none = PyVal.str token → token ≠ "" →
      dictGet store token = some (.dict r) →
      ∃ s1, processEntry now store (.dict kvs) = .ok s1 ∧
        ∃ r1, dictGet s1 token = some (.dict r1) ∧ frame4 r r1 ∧
          dictGet r1 "active" =
            (if dictMem kvs "active" then
              some (dictGetD kvs "active" PyVal.none)
            else dictGet r "active") ∧
          dictGet r1 "description" =
            (if dictMem kvs "description" then
              some (dictGetD kvs "description" PyVal.none)
            else dictGet r "description") ∧
          ∀ u, u ≠ token → dictGet s1 u = dictGet store u) ∧
    (∀ (now : Int) (token : String) (kvs : List (String × PyVal))
        (ea caO : Option Int) (post pre : List PyVal) (store : Store),
      (∀ e1 ∈ pre, entryTokenNe token e1) →
      (∀ e1 ∈ post, entryTokenNe token e1) →
      dictGetD kvs "token" PyVal.none = PyVal.str token → token ≠ "" →
      dictGet store token = Option.none →
      parseTsField kvs "expires_at" = .ok ea →
      parseTsField kvs "created_at" = .ok caO →
      ∃ sfin,
        syncLoop now store (pre ++ PyVal.dict kvs :: post) =
          (sfin, Option.none) ∧
        dictGet sfin token =
          some (mkSyncRec kvs ea (caVal now caO))) :=
  ⟨sync_frame,
   processEntry_known,
   fun now token kvs ea caO post pre =>
     syncLoop_insert now token kvs ea caO post pre⟩

/-- Witness for C3: a one-descriptor batch for the fresh token `"t1"` folded
into the empty store inserts exactly the default record. -/
theorem sync_merge_spec_witness :
    ∃ sfin,
      syncLoop 0 [] ([] ++ PyVal.dict [("token", PyVal.str "t1")] :: []) =
        (sfin, Option.none) ∧
      dictGet sfin "t1" =
        some (mkSyncRec [("token", PyVal.str "t1")] Option.none
          (caVal 0 Option.none)) :=
  sync_merge_spec.2.2 0 "t1" [("token", PyVal.str "t1")] Option.none
    Option.none [] [] []
    (fun e1 he1 => absurd he1 (List.not_mem_nil e1))
    (fun e1 he1 => absurd he1 (List.not_mem_nil e1))
    rfl (by decide) rfl rfl rfl

/-- C4 counterexample: a two-descriptor batch whose second descriptor lacks
the token string reports `synced = 2` — the total length of the batch — while
only one entry was actually processed (the resulting store holds a single
record). -/
theorem sync_count_cex :
    sync_tokens 0 [] (some (.dict [("tokens", .list c4batch)])) =
      (.okSynced 2, c4after) ∧
    c4after.length = 1 :=
  ⟨rfl, rfl⟩

/-- C4 amended: each individually malformed descriptor — one without a token
string, or one for an unknown token whose timestamp does not parse — is
skipped without aborting the rest of the batch; but the reported count is the
total number of entries in the batch, not the number successfully
processed. -/
theorem sync_count_spec :
    (∀ (now : Int) (store : Store) (xs : List PyVal),
      storeAllDicts store = true →
      (∀ e1 ∈ xs, ∃ kvs, e1 = PyVal.dict kvs) →
      ∃ s1, sync_tokens now store (some (.dict [("tokens", .list xs)])) =
        (.okSynced xs.length, s1)) ∧
    (∀ (now : Int) (store : Store) (kvs : List (String × PyVal)),
      truthy (dictGetD kvs "token" PyVal.none) = false →
      processEntry now store (.dict kvs) = .ok store) ∧
    (∀ (now : Int) (store : Store) (kvs : List (String × PyVal))
        (token s : String),
      dictGetD kvs "token" PyVal.none = PyVal.str token → token ≠ "" →
      dictGet store token = Option.none →
      dictGetD kvs "expires_at" PyVal.none = PyVal.str s → s ≠ "" →
      fromiso s = Option.none →
      processEntry now store (.dict kvs) = .ok store) := by
  refine ⟨?_, ?_, ?_⟩
  · intro now store xs hall hdicts
    obtain ⟨sfin, hl, hfall⟩ := syncLoop_dicts_ok now xs store hdicts hall
    obtain ⟨w, hw⟩ := saveTokens_ok sfin hfall
    refine ⟨sfin, ?_⟩
    simp [sync_tokens, truthy, pyContains, pyIndex, dictMem, dictGet, hl,
      syncAfter, hw]
  · intro now store kvs ht
    simp [processEntry, ht]
  · intro now store kvs token s htv hne hg hea hs hfs
    unfold processEntry
    dsimp only
    rw [htv]
    dsimp only
    rw [if_neg (show ¬truthy (PyVal.str token) = false by
      simp [truthy, hne])]
    have hb : entryBody now store token kvs = .error .valueError := by
      unfold entryBody
      rw [if_pos (show dictMem store token = false by simp [dictMem, hg])]
      have hp : parseTsField kvs "expires_at" = .error .valueError := by
        unfold parseTsField
        rw [hea]
        simp [truthy, hs, hfs]
      rw [hp]
    rw [hb]

/-- Witness for C4 (amended): the empty batch over the empty store reports
`synced = 0`. -/
theorem sync_count_spec_witness :
    ∃ s1, sync_tokens 0 [] (some (.dict [("tokens", .list [])])) =
      (.okSynced (List.length ([] : List PyVal)), s1) :=
  sync_count_spec.1 0 [] [] rfl
    (fun e1 he1 => absurd he1 (List.not_mem_nil e1))

end Yanswap
